import Mathlib

/-!
Verification of the core algorithms of `triangulate2.c` (GMT_CURVE).

The development shallowly embeds the arithmetic of the source in exact real
(or natural-number) arithmetic: C `double` expressions become `ℝ` expressions,
index arithmetic becomes `ℕ`/`ℤ`, and the C library calls `sqrt`, `tan` become
`Real.sqrt`, `Real.tan`.  External GMT collaborators (the winding-number test,
the grid coordinate transforms, the slope grid) are abstract parameters, since
the module consumes them as black boxes.
-/

/-! ## EdgeExtractor (triangulate2.c lines 87-99 and 633-647) -/

/-- `struct TRIANGULATE2_EDGE` (line 87): a pair of vertex indices.
The C field `end` is a Lean keyword, hence `end_`. -/
structure TRIANGULATE2_EDGE where
  begin : ℕ
  end_ : ℕ
  deriving DecidableEq, Repr

/-- `compare_edge` (lines 91-99): lexicographic comparator on (begin, end). -/
def compare_edge (a b : TRIANGULATE2_EDGE) : ℤ :=
  if a.begin < b.begin then -1
  else if a.begin > b.begin then 1
  else if a.end_ < b.end_ then -1
  else if a.end_ > b.end_ then 1
  else 0

/-- Non-strict order induced by `compare_edge` (what `qsort` sorts by). -/
def edge_le (a b : TRIANGULATE2_EDGE) : Prop := compare_edge a b ≤ 0

/-- Strict order induced by `compare_edge`. -/
def edge_lt (a b : TRIANGULATE2_EDGE) : Prop := compare_edge a b < 0

instance : DecidableRel edge_le :=
  fun a b => inferInstanceAs (Decidable (compare_edge a b ≤ 0))

instance : DecidableRel edge_lt :=
  fun a b => inferInstanceAs (Decidable (compare_edge a b < 0))

/-- The three directed edges the loop at lines 635-639 emits for one triangle
`(j,k,l)`: `(j,k)`, `(k,l)`, `(j,l)`. -/
def tri_edges (t : ℕ × ℕ × ℕ) : List TRIANGULATE2_EDGE :=
  [⟨t.1, t.2.1⟩, ⟨t.2.1, t.2.2⟩, ⟨t.1, t.2.2⟩]

/-- Canonicalization (line 640): swap endpoints when `begin > end`. -/
def canon_edge (e : TRIANGULATE2_EDGE) : TRIANGULATE2_EDGE :=
  if e.begin > e.end_ then ⟨e.end_, e.begin⟩ else e

/-- All `3·np` canonicalized edges of a triangle list (lines 635-640). -/
def all_edges (ts : List (ℕ × ℕ × ℕ)) : List TRIANGULATE2_EDGE :=
  ((ts.map tri_edges).flatten).map canon_edge

/-- The in-place deduplication loop at lines 643-647: `prev` is the element at
the write index `j`; an element is kept exactly when it differs from the last
kept one. -/
def dedup_go (prev : TRIANGULATE2_EDGE) :
    List TRIANGULATE2_EDGE → List TRIANGULATE2_EDGE
  | [] => []
  | x :: xs => if x = prev then dedup_go x xs else x :: dedup_go x xs

/-- The edge-extraction pipeline of lines 633-650: emit, canonicalize, sort
with `compare_edge` (`qsort`; with this total comparator, elements comparing
equal are structurally identical, so the sorted arrangement is unique and is
modelled by insertion sort), deduplicate adjacent equal entries.  The final
count is `n_edge = j + 1` (line 647) even when the dedup loop body never ran:
for an empty triangle list (`np = 0`, so `n_edge = 3·np = 0` edges) the count
still becomes 1 and the emit loop at line 650 reads one edge out of bounds
from the zero-length allocation; that indeterminate entry is the `garbage`
parameter. -/
def unique_edges (garbage : TRIANGULATE2_EDGE) (ts : List (ℕ × ℕ × ℕ)) :
    List TRIANGULATE2_EDGE :=
  match List.insertionSort edge_le (all_edges ts) with
  | [] => [garbage]
  | e :: es => e :: dedup_go e es

/-! ## Plane fit (triangulate2.c lines 529-535) -/

/-- `f = 1.0 / (xkj * ylj - ykj * xlj)` (line 532), with the edge-vector
differences of lines 529-530 inlined. -/
def plane_f {K : Type} [Field K] (xj yj xk yk xl yl : K) : K :=
  1 / ((xk - xj) * (yl - yj) - (yk - yj) * (xl - xj))

/-- `a = -f * (ykj * zlj - zkj * ylj)` (line 533). -/
def plane_a {K : Type} [Field K] (xj yj zj xk yk zk xl yl zl : K) : K :=
  -(plane_f xj yj xk yk xl yl) * ((yk - yj) * (zl - zj) - (zk - zj) * (yl - yj))

/-- `b = -f * (zkj * xlj - xkj * zlj)` (line 534). -/
def plane_b {K : Type} [Field K] (xj yj zj xk yk zk xl yl zl : K) : K :=
  -(plane_f xj yj xk yk xl yl) * ((zk - zj) * (xl - xj) - (xk - xj) * (zl - zj))

/-- `c = -a * vx[1] - b * vy[1] + zk` (line 535): the plane is pinned at
vertex `k`. -/
def plane_c {K : Type} [Field K] (xj yj zj xk yk zk xl yl zl : K) : K :=
  -(plane_a xj yj zj xk yk zk xl yl zl) * xk
    - (plane_b xj yj zj xk yk zk xl yl zl) * yk + zk

/-! ## Comparator facts -/

lemma compare_edge_le_iff (a b : TRIANGULATE2_EDGE) :
    compare_edge a b ≤ 0 ↔
      a.begin < b.begin ∨ (a.begin = b.begin ∧ a.end_ ≤ b.end_) := by
  unfold compare_edge
  split_ifs with h1 h2 h3 h4 <;> simp <;> omega

lemma compare_edge_lt_iff (a b : TRIANGULATE2_EDGE) :
    compare_edge a b < 0 ↔
      a.begin < b.begin ∨ (a.begin = b.begin ∧ a.end_ < b.end_) := by
  unfold compare_edge
  split_ifs with h1 h2 h3 h4 <;> simp <;> omega

lemma compare_edge_eq_zero_iff (a b : TRIANGULATE2_EDGE) :
    compare_edge a b = 0 ↔ a = b := by
  unfold compare_edge
  rcases a with ⟨ab, ae⟩
  rcases b with ⟨bb, be⟩
  simp only [TRIANGULATE2_EDGE.mk.injEq]
  split_ifs with h1 h2 h3 h4 <;> simp <;> omega

instance : IsTotal TRIANGULATE2_EDGE edge_le := by
  constructor
  intro a b
  unfold edge_le
  rw [compare_edge_le_iff, compare_edge_le_iff]
  omega

instance : IsTrans TRIANGULATE2_EDGE edge_le := by
  constructor
  intro a b c
  unfold edge_le
  rw [compare_edge_le_iff, compare_edge_le_iff, compare_edge_le_iff]
  omega

instance : IsTrans TRIANGULATE2_EDGE edge_lt := by
  constructor
  intro a b c
  unfold edge_lt
  rw [compare_edge_lt_iff, compare_edge_lt_iff, compare_edge_lt_iff]
  omega

lemma edge_le_of_ne_lt {a b : TRIANGULATE2_EDGE} (h : edge_le a b)
    (hne : b ≠ a) : edge_lt a b := by
  unfold edge_le at h
  unfold edge_lt
  rcases lt_or_eq_of_le h with h2 | h2
  · exact h2
  · exact absurd ((compare_edge_eq_zero_iff a b).mp h2).symm hne

/-! ## Deduplication lemmas -/

lemma dedup_go_chain :
    ∀ (l : List TRIANGULATE2_EDGE) (prev : TRIANGULATE2_EDGE),
      List.Chain edge_le prev l → List.Chain edge_lt prev (dedup_go prev l) := by
  intro l
  induction l with
  | nil => intro prev _; simp [dedup_go]
  | cons x xs ih =>
    intro prev h
    rw [List.chain_cons] at h
    unfold dedup_go
    by_cases hx : x = prev
    · rw [if_pos hx]
      subst hx
      exact ih x h.2
    · rw [if_neg hx]
      exact List.Chain.cons (edge_le_of_ne_lt h.1 hx) (ih x h.2)

lemma dedup_go_subset :
    ∀ (l : List TRIANGULATE2_EDGE) (prev : TRIANGULATE2_EDGE),
      dedup_go prev l ⊆ l := by
  intro l
  induction l with
  | nil => intro prev; simp [dedup_go]
  | cons x xs ih =>
    intro prev
    unfold dedup_go
    by_cases hx : x = prev
    · rw [if_pos hx]
      exact fun a ha => List.mem_cons_of_mem x (ih x ha)
    · rw [if_neg hx]
      intro a ha
      rcases List.mem_cons.mp ha with h | h
      · exact h ▸ List.mem_cons_self x xs
      · exact List.mem_cons_of_mem x (ih x h)

lemma dedup_go_length :
    ∀ (l : List TRIANGULATE2_EDGE) (prev : TRIANGULATE2_EDGE),
      (dedup_go prev l).length ≤ l.length := by
  intro l
  induction l with
  | nil => intro prev; simp [dedup_go]
  | cons x xs ih =>
    intro prev
    unfold dedup_go
    by_cases hx : x = prev
    · rw [if_pos hx]
      exact le_trans (ih x) (Nat.le_succ _)
    · rw [if_neg hx]
      simpa using ih x

lemma canon_edge_le (e : TRIANGULATE2_EDGE) :
    (canon_edge e).begin ≤ (canon_edge e).end_ := by
  unfold canon_edge
  split_ifs with h
  · exact le_of_lt h
  · omega

lemma flatten_tri_edges_length :
    ∀ ts : List (ℕ × ℕ × ℕ), ((ts.map tri_edges).flatten).length = 3 * ts.length := by
  intro ts
  induction ts with
  | nil => simp
  | cons t ts ih =>
    rw [List.map_cons, List.flatten_cons, List.length_append, ih, List.length_cons]
    rw [show (tri_edges t).length = 3 from rfl]
    ring

lemma all_edges_length (ts : List (ℕ × ℕ × ℕ)) :
    (all_edges ts).length = 3 * ts.length := by
  unfold all_edges
  rw [List.length_map, flatten_tri_edges_length]

/-- C1: for every triangle whose three vertices span a non-degenerate plane
(the denominator `(x_k-x_j)(y_l-y_j) - (y_k-y_j)(x_l-x_j)` is non-zero), the
coefficients `a`, `b`, `c` computed at lines 529-535 satisfy
`a·x_i + b·y_i + c = z_i` at all three vertices `i ∈ {j,k,l}`, exactly, over
exact (real) arithmetic. -/
theorem C1_plane_interpolates_vertices (xj yj zj xk yk zk xl yl zl : ℝ)
    (hden : (xk - xj) * (yl - yj) - (yk - yj) * (xl - xj) ≠ 0) :
    plane_a xj yj zj xk yk zk xl yl zl * xj
        + plane_b xj yj zj xk yk zk xl yl zl * yj
        + plane_c xj yj zj xk yk zk xl yl zl = zj ∧
    plane_a xj yj zj xk yk zk xl yl zl * xk
        + plane_b xj yj zj xk yk zk xl yl zl * yk
        + plane_c xj yj zj xk yk zk xl yl zl = zk ∧
    plane_a xj yj zj xk yk zk xl yl zl * xl
        + plane_b xj yj zj xk yk zk xl yl zl * yl
        + plane_c xj yj zj xk yk zk xl yl zl = zl := by
  unfold plane_c plane_b plane_a plane_f
  refine ⟨?_, ?_, ?_⟩ <;> field_simp <;> ring

/-- Witness for C1 at the concrete triangle (0,0,0), (1,0,1), (0,1,2):
denominator 1, plane z = x + 2y. -/
theorem C1_plane_interpolates_vertices_witness :
    ((1 - 0 : ℝ) * (1 - 0) - (0 - 0) * (0 - 0) ≠ 0) ∧
    (plane_a (0:ℝ) 0 0 1 0 1 0 1 2 * 0 + plane_b (0:ℝ) 0 0 1 0 1 0 1 2 * 0
        + plane_c (0:ℝ) 0 0 1 0 1 0 1 2 = 0 ∧
     plane_a (0:ℝ) 0 0 1 0 1 0 1 2 * 1 + plane_b (0:ℝ) 0 0 1 0 1 0 1 2 * 0
        + plane_c (0:ℝ) 0 0 1 0 1 0 1 2 = 1 ∧
     plane_a (0:ℝ) 0 0 1 0 1 0 1 2 * 0 + plane_b (0:ℝ) 0 0 1 0 1 0 1 2 * 1
        + plane_c (0:ℝ) 0 0 1 0 1 0 1 2 = 2) :=
  ⟨by norm_num, C1_plane_interpolates_vertices 0 0 0 1 0 1 0 1 2 (by norm_num)⟩

/-- C2 counterexample: the claim as stated fails on the code at the empty
triangle list.  With `np = 0` there are `n_edge = 0` edges and the dedup loop
body never runs, yet line 647 still sets `n_edge = j + 1 = 1`, so the emit
loop at line 650 outputs one edge (read out of bounds) — more than the claimed
bound `3·T = 0`. -/
theorem C2_edge_extractor_counterexample :
    (unique_edges ⟨0, 0⟩ []).length = 1 ∧
    ¬ (unique_edges ⟨0, 0⟩ []).length ≤ 3 * ([] : List (ℕ × ℕ × ℕ)).length := by
  decide

/-- C2 as amended: for every NONEMPTY triangle list the extracted edge list is
strictly increasing in the `compare_edge` (lexicographic) order — hence free
of duplicates — every entry satisfies `begin ≤ end`, and there are at most
`3·T` edges, independently of the indeterminate value the empty-list case
would emit; on the triangle list `[(0,1,2),(1,2,3)]` the output is exactly the
five edges `(0,1),(0,2),(1,2),(1,3),(2,3)`, with the shared edge `(1,2)`
appearing once.  (For the empty triangle list the program instead emits one
out-of-bounds edge, see `C2_edge_extractor_counterexample`.) -/
theorem C2_edge_extractor :
    (∀ (g : TRIANGULATE2_EDGE) (ts : List (ℕ × ℕ × ℕ)), ts ≠ [] →
      List.Pairwise edge_lt (unique_edges g ts) ∧
      (∀ e ∈ unique_edges g ts, e.begin ≤ e.end_) ∧
      (unique_edges g ts).length ≤ 3 * ts.length) ∧
    (∀ g : TRIANGULATE2_EDGE,
      unique_edges g [(0,1,2),(1,2,3)] = [⟨0,1⟩, ⟨0,2⟩, ⟨1,2⟩, ⟨1,3⟩, ⟨2,3⟩]) := by
  constructor
  · intro g ts hne
    have hsorted : List.Sorted edge_le (List.insertionSort edge_le (all_edges ts)) :=
      List.sorted_insertionSort edge_le (all_edges ts)
    have hperm : (List.insertionSort edge_le (all_edges ts)).Perm (all_edges ts) :=
      List.perm_insertionSort edge_le (all_edges ts)
    have hlen : (List.insertionSort edge_le (all_edges ts)).length = 3 * ts.length := by
      rw [hperm.length_eq, all_edges_length]
    have hpos : 0 < (List.insertionSort edge_le (all_edges ts)).length := by
      rw [hlen]
      rcases ts with _ | ⟨t, ts⟩
      · exact absurd rfl hne
      · simp
    refine ⟨?_, ?_, ?_⟩
    · unfold unique_edges
      rcases hs : List.insertionSort edge_le (all_edges ts) with _ | ⟨e, es⟩
      · rw [hs] at hpos
        simp at hpos
      · rw [hs] at hsorted
        have hchain : List.Chain edge_le e es :=
          List.chain_iff_pairwise.mpr hsorted
        exact List.chain_iff_pairwise.mp (dedup_go_chain es e hchain)
    · intro e he
      have hmem : e ∈ all_edges ts := by
        unfold unique_edges at he
        rcases hs : List.insertionSort edge_le (all_edges ts) with _ | ⟨e0, es⟩
        · rw [hs] at hpos
          simp at hpos
        · rw [hs] at he
          rcases List.mem_cons.mp he with h | h
          · exact hperm.mem_iff.mp (by rw [hs]; exact h ▸ List.mem_cons_self e0 es)
          · exact hperm.mem_iff.mp
              (by rw [hs]; exact List.mem_cons_of_mem e0 (dedup_go_subset es e0 h))
      unfold all_edges at hmem
      rcases List.mem_map.mp hmem with ⟨pre, _, hpre⟩
      rw [← hpre]
      exact canon_edge_le pre
    · unfold unique_edges
      rcases hs : List.insertionSort edge_le (all_edges ts) with _ | ⟨e, es⟩
      · rw [hs] at hpos
        simp at hpos
      · rw [hs] at hlen
        simp only [List.length_cons] at hlen ⊢
        have := dedup_go_length es e
        omega
  · intro g
    rfl

/-- Witness for C2: the amended claim's bound applied at the concrete nonempty
triangle list `[(0,1,2)]` (with a concrete stand-in for the never-used
out-of-bounds entry). -/
theorem C2_edge_extractor_witness :
    ([((0:ℕ), (1:ℕ), (2:ℕ))] : List (ℕ × ℕ × ℕ)) ≠ [] ∧
    (unique_edges ⟨0, 0⟩ [(0,1,2)]).length ≤
      3 * ([((0:ℕ), (1:ℕ), (2:ℕ))] : List (ℕ × ℕ × ℕ)).length :=
  ⟨by decide, (C2_edge_extractor.1 ⟨0, 0⟩ [(0,1,2)] (by decide)).2.2⟩

/-! ## UncertaintyModel (triangulate2.c lines 46, 512-514, 572-591)

The per-cell propagated standard deviation.  Constants from lines 512-514:
`alpha = 2.0`, `s_H = 1.0`, `delta_min = Ctrl->I.inc[0]` (the grid x-spacing).
Since `alpha` is the literal `2.0`, the C calls `pow(x, alpha)` and
`pow(x, 2.0)` equal `x²` exactly; they are embedded as `x ^ 2`.

The coincidence test at lines 578-582 is `abs(distvi) < EPS_D` where `distvi`
is a `double` and `abs` is the C `<stdlib.h>` integer function `int abs(int)`:
the argument is implicitly converted to `int` (truncation toward zero) before
the absolute value is taken.  The embedding models this conversion faithfully
(`c_trunc` / `c_abs`), not the `fabs` the constant `EPS_D` suggests was
intended. -/

/-- `EPS_D` (line 46). -/
noncomputable def EPS_D : ℝ := 2.220446e-16

/-- `s_H` (line 514). -/
noncomputable def s_H : ℝ := 1.0

/-- C conversion of a `double` to `int`: truncation toward zero. -/
noncomputable def c_trunc (x : ℝ) : ℤ := if 0 ≤ x then ⌊x⌋ else -⌊-x⌋

/-- C `abs` applied to a `double` argument: the argument is first converted
to `int` (truncation), then the integer absolute value is taken. -/
noncomputable def c_abs (x : ℝ) : ℤ := |c_trunc x|

/-- `distvi = sqrt(pow(xp - vx[i], 2.0) + pow(yp - vy[i], 2.0))`
(lines 572-574, with `CoordsX[col]`, `CoordsY[row]` as the query point). -/
noncomputable def distV (xp yp xv yv : ℝ) : ℝ :=
  Real.sqrt ((xp - xv) ^ 2 + (yp - yv) ^ 2)

/-- `uvi = pow(vi,2)*(1 + pow((distvi + s_H*hi)/delta_min, alpha))
           + pow(tan(slope)*hi, 2)` (lines 575-577), `alpha = 2.0`. -/
noncomputable def uvTerm (slope delta_min v h dist : ℝ) : ℝ :=
  v ^ 2 * (1 + ((dist + s_H * h) / delta_min) ^ 2) + (Real.tan slope * h) ^ 2

open Classical in
/-- The per-cell `sigma` of lines 572-591: vertex distances and `uv` terms,
then the three coincidence branches (guarded by the C `abs` test) in vertex
order, else the inverse-distance-weighted blend of lines 586-590. -/
noncomputable def sigmaCell (slope delta_min xp yp
    x1 y1 h1 v1 x2 y2 h2 v2 x3 y3 h3 v3 : ℝ) : ℝ :=
  if (c_abs (distV xp yp x1 y1) : ℝ) < EPS_D then
    Real.sqrt (uvTerm slope delta_min v1 h1 (distV xp yp x1 y1))
  else if (c_abs (distV xp yp x2 y2) : ℝ) < EPS_D then
    Real.sqrt (uvTerm slope delta_min v2 h2 (distV xp yp x2 y2))
  else if (c_abs (distV xp yp x3 y3) : ℝ) < EPS_D then
    Real.sqrt (uvTerm slope delta_min v3 h3 (distV xp yp x3 y3))
  else
    Real.sqrt
      ((uvTerm slope delta_min v1 h1 (distV xp yp x1 y1) / distV xp yp x1 y1
          + uvTerm slope delta_min v2 h2 (distV xp yp x2 y2) / distV xp yp x2 y2
          + uvTerm slope delta_min v3 h3 (distV xp yp x3 y3) / distV xp yp x3 y3)
        / (1 / distV xp yp x1 y1 + 1 / distV xp yp x2 y2 + 1 / distV xp yp x3 y3))

/-! ### Evaluation helpers for concrete inputs -/

lemma sqrt_of_sq (x y : ℝ) (hy : 0 ≤ y) (h : x = y ^ 2) : Real.sqrt x = y := by
  rw [h]
  exact Real.sqrt_sq hy

lemma distV_half : distV 0 0 (1/2) 0 = 1/2 := by
  unfold distV
  exact sqrt_of_sq _ _ (by norm_num) (by norm_num)

lemma distV_origin : distV 0 0 0 0 = 0 := by
  unfold distV
  rw [show ((0:ℝ) - 0) ^ 2 + ((0:ℝ) - 0) ^ 2 = 0 by norm_num]
  exact Real.sqrt_zero

lemma distV_34 : distV 0 0 3 4 = 5 := by
  unfold distV
  exact sqrt_of_sq _ _ (by norm_num) (by norm_num)

lemma distV_02 : distV 0 0 0 2 = 2 := by
  unfold distV
  exact sqrt_of_sq _ _ (by norm_num) (by norm_num)

lemma distV_07 : distV 0 0 0 (7/10) = 7/10 := by
  unfold distV
  exact sqrt_of_sq _ _ (by norm_num) (by norm_num)

lemma c_abs_of_unit_interval {x : ℝ} (h0 : 0 ≤ x) (h1 : x < 1) : c_abs x = 0 := by
  unfold c_abs c_trunc
  rw [if_pos h0, Int.floor_eq_zero_iff.mpr ⟨h0, h1⟩]
  rfl

lemma c_abs_nonneg_eval {x : ℝ} (h0 : 0 ≤ x) : c_abs x = ⌊x⌋ := by
  unfold c_abs c_trunc
  rw [if_pos h0]
  exact abs_of_nonneg (Int.floor_nonneg.mpr h0)

lemma EPS_D_pos : (0 : ℝ) < EPS_D := by norm_num [EPS_D]

lemma EPS_D_lt_one : EPS_D < 1 := by norm_num [EPS_D]

lemma coinc_test_of_lt_one {x : ℝ} (h0 : 0 ≤ x) (h1 : x < 1) :
    (c_abs x : ℝ) < EPS_D := by
  rw [c_abs_of_unit_interval h0 h1]
  exact_mod_cast EPS_D_pos

lemma coinc_test_fail_of_ge_one {x : ℝ} (h1 : 1 ≤ x) :
    ¬ (c_abs x : ℝ) < EPS_D := by
  rw [c_abs_nonneg_eval (le_trans zero_le_one h1)]
  have hfl : (1 : ℤ) ≤ ⌊x⌋ := by
    rw [show (1:ℤ) = ⌊(1:ℝ)⌋ by norm_num]
    exact Int.floor_le_floor h1
  have : (1 : ℝ) ≤ (⌊x⌋ : ℝ) := by exact_mod_cast hfl
  have := lt_of_lt_of_le EPS_D_lt_one this
  linarith

lemma uvTerm_eval_simple (v dist : ℝ) :
    uvTerm 0 1 v 0 dist = v ^ 2 * (1 + dist ^ 2) := by
  unfold uvTerm s_H
  rw [Real.tan_zero]
  ring

lemma sqrt_ne_sqrt_of_ne {x y : ℝ} (hx : 0 ≤ x) (hy : 0 ≤ y) (h : x ≠ y) :
    Real.sqrt x ≠ Real.sqrt y := fun hc => h ((Real.sqrt_inj hx hy).mp hc)

/-- C3, code bug: the coincidence test at lines 578-582 applies the C integer
function `abs` to the `double` distance, truncating it toward zero, so the
branch for a vertex fires whenever the distance to it is below 1.0 — not below
the tolerance `EPS_D = 2.220446e-16` the claim (and the constant itself)
intends.  At the concrete cell `(0,0)` with vertex `j = (1/2, 0)`
(`dist_j = 1/2`, far above tolerance), vertex `k = (0,0)` (`dist_k = 0`,
coincident), vertex `l = (3,4)`, attributes `h = 0`, `v = (1,2,1)`,
`slope = 0`, `delta_min = 1`, the claim requires `sigma = sqrt(uv_k) = 2`,
but the code returns `sqrt(uv_j) = sqrt(5/4)` because vertex `j` already
passes the truncated test. -/
theorem C3_coincidence_guard_bug :
    EPS_D < distV 0 0 (1/2) 0 ∧
    distV 0 0 0 0 < EPS_D ∧
    sigmaCell 0 1 0 0 (1/2) 0 0 1 0 0 0 2 3 4 0 1 = Real.sqrt (5/4) ∧
    Real.sqrt (uvTerm 0 1 2 0 (distV 0 0 0 0)) = 2 ∧
    Real.sqrt (5/4) ≠ 2 := by
  refine ⟨?_, ?_, ?_, ?_, ?_⟩
  · rw [distV_half]
    norm_num [EPS_D]
  · rw [distV_origin]
    exact EPS_D_pos
  · unfold sigmaCell
    rw [distV_half]
    rw [if_pos (coinc_test_of_lt_one (by norm_num) (by norm_num))]
    rw [uvTerm_eval_simple]
    norm_num
  · rw [distV_origin, uvTerm_eval_simple]
    exact sqrt_of_sq _ _ (by norm_num) (by norm_num)
  · rw [show (2:ℝ) = Real.sqrt 4 from (sqrt_of_sq 4 2 (by norm_num) (by norm_num)).symm]
    exact sqrt_ne_sqrt_of_ne (by norm_num) (by norm_num) (by norm_num)

/-- C4, code bug: the per-vertex contribution `uv_i` matches the claim exactly
(definition `uvTerm`), but the "non-coincident case" is guarded by the same
truncating `abs` test as C3: at the cell `(0,0)` with vertices `(1/2,0)`,
`(3,4)`, `(0,2)` (distances `1/2`, `5`, `2`, all far above the tolerance
`2.22e-16`), `h = 0`, `v = 1` everywhere, `slope = 0`, `delta_min = 1`, the
claim requires the inverse-distance-weighted blend `sqrt(34/9)`, but the code
returns `sqrt(uv_1) = sqrt(5/4)` because `abs((int)0.5) = 0 < EPS_D`. -/
theorem C4_blend_guard_bug :
    EPS_D < distV 0 0 (1/2) 0 ∧
    EPS_D < distV 0 0 3 4 ∧
    EPS_D < distV 0 0 0 2 ∧
    sigmaCell 0 1 0 0 (1/2) 0 0 1 3 4 0 1 0 2 0 1 = Real.sqrt (5/4) ∧
    Real.sqrt
      ((uvTerm 0 1 1 0 (distV 0 0 (1/2) 0) / distV 0 0 (1/2) 0
          + uvTerm 0 1 1 0 (distV 0 0 3 4) / distV 0 0 3 4
          + uvTerm 0 1 1 0 (distV 0 0 0 2) / distV 0 0 0 2)
        / (1 / distV 0 0 (1/2) 0 + 1 / distV 0 0 3 4 + 1 / distV 0 0 0 2))
      = Real.sqrt (34/9) ∧
    Real.sqrt (5/4) ≠ Real.sqrt (34/9) := by
  refine ⟨?_, ?_, ?_, ?_, ?_, ?_⟩
  · rw [distV_half]
    norm_num [EPS_D]
  · rw [distV_34]
    norm_num [EPS_D]
  · rw [distV_02]
    norm_num [EPS_D]
  · unfold sigmaCell
    rw [distV_half]
    rw [if_pos (coinc_test_of_lt_one (by norm_num) (by norm_num))]
    rw [uvTerm_eval_simple]
    norm_num
  · rw [distV_half, distV_34, distV_02, uvTerm_eval_simple, uvTerm_eval_simple,
      uvTerm_eval_simple]
    norm_num
  · exact sqrt_ne_sqrt_of_ne (by norm_num) (by norm_num) (by norm_num)

/-- C5, code bug: permutation invariance of the non-coincident branch fails on
the code because the truncating `abs` test (see C3) can fire for different
vertices under different orderings even when every distance is above the
claimed tolerance.  At the cell `(0,0)` with vertices `j = (1/2,0)`
(`dist 1/2`, `v = 1`), `k = (0,7/10)` (`dist 7/10`, `v = 2`), `l = (3,4)`
(`dist 5`, `v = 1`), `h = 0`, `slope = 0`, `delta_min = 1` — all distances
above `2.22e-16` — the order `(j,k,l)` yields `sqrt(5/4)` while the order
`(k,j,l)` yields `sqrt(149/25)`. -/
theorem C5_not_permutation_invariant :
    EPS_D < distV 0 0 (1/2) 0 ∧
    EPS_D < distV 0 0 0 (7/10) ∧
    EPS_D < distV 0 0 3 4 ∧
    sigmaCell 0 1 0 0 (1/2) 0 0 1 0 (7/10) 0 2 3 4 0 1 = Real.sqrt (5/4) ∧
    sigmaCell 0 1 0 0 0 (7/10) 0 2 (1/2) 0 0 1 3 4 0 1 = Real.sqrt (149/25) ∧
    Real.sqrt (5/4) ≠ Real.sqrt (149/25) := by
  refine ⟨?_, ?_, ?_, ?_, ?_, ?_⟩
  · rw [distV_half]
    norm_num [EPS_D]
  · rw [distV_07]
    norm_num [EPS_D]
  · rw [distV_34]
    norm_num [EPS_D]
  · unfold sigmaCell
    rw [distV_half]
    rw [if_pos (coinc_test_of_lt_one (by norm_num) (by norm_num))]
    rw [uvTerm_eval_simple]
    norm_num
  · unfold sigmaCell
    rw [distV_07]
    rw [if_pos (coinc_test_of_lt_one (by norm_num) (by norm_num))]
    rw [uvTerm_eval_simple]
    norm_num
  · exact sqrt_ne_sqrt_of_ne (by norm_num) (by norm_num) (by norm_num)

/-! ## TriangleRasterizer (triangulate2.c lines 495-597)

The scan-conversion loops.  External GMT helpers are abstract parameters of a
`RastEnv`: `winding` is `gmt_non_zero_winding` (a black-box point-in-polygon
test), `colToX`/`rowToY` are `gmt_M_grd_col_to_x`/`gmt_M_grd_row_to_y`,
`coordX`/`coordY` are the `GMT_Get_Coord` arrays, `xToCol`/`yToRow` are
`gmt_M_grd_x_to_col`/`gmt_M_grd_y_to_row`, and `slope` is the aligned slope
grid `Slopes->data`.  `Ddir` is `Ctrl->D.dir` (`GMT_X = 0`, `GMT_Y = 1`,
default `2`), `uactive` is `Ctrl->u.active`. -/

/-- Abstract environment of external collaborators and configuration for one
gridding run. -/
structure RastEnv where
  winding : ℝ → ℝ → List ℝ → List ℝ → ℕ → Bool
  colToX : ℤ → ℝ
  rowToY : ℤ → ℝ
  coordX : ℤ → ℝ
  coordY : ℤ → ℝ
  xToCol : ℝ → ℤ
  yToRow : ℝ → ℤ
  Ddir : ℕ
  uactive : Bool
  slope : ℤ → ℤ → ℝ
  delta_min : ℝ
  ncols : ℤ
  nrows : ℤ

/-- The fifteen per-vertex values fetched at lines 525-527 for one triangle:
coordinates, elevations and uncertainty attributes of vertices `j`, `k`, `l`
(here numbered 1, 2, 3). -/
structure TriVerts where
  x1 : ℝ
  y1 : ℝ
  z1 : ℝ
  h1 : ℝ
  v1 : ℝ
  x2 : ℝ
  y2 : ℝ
  z2 : ℝ
  h2 : ℝ
  v2 : ℝ
  x3 : ℝ
  y3 : ℝ
  z3 : ℝ
  h3 : ℝ
  v3 : ℝ

/-- The inside test of line 563: `gmt_non_zero_winding (GMT, xp, yp, vx, vy, 4)`
with vertex 0 repeated as the closing 4th vertex (line 525: `vx[0] = vx[3]`,
`vy[0] = vy[3]`). -/
noncomputable def insideCell (E : RastEnv) (T : TriVerts) (r c : ℤ) : Bool :=
  E.winding (E.colToX c) (E.rowToY r) [T.x1, T.x2, T.x3, T.x1]
    [T.y1, T.y2, T.y3, T.y1] 4

/-- The value stored at lines 565-594 for an inside cell: `a` when
`D.dir == GMT_X`, `b` when `D.dir == GMT_Y`, else `sigma` with `-u` and the
plane value `a·xp + b·yp + c` without. -/
noncomputable def cellValue (E : RastEnv) (T : TriVerts) (r c : ℤ) : ℝ :=
  if E.Ddir = 0 then plane_a T.x1 T.y1 T.z1 T.x2 T.y2 T.z2 T.x3 T.y3 T.z3
  else if E.Ddir = 1 then plane_b T.x1 T.y1 T.z1 T.x2 T.y2 T.z2 T.x3 T.y3 T.z3
  else if E.uactive then
    sigmaCell (E.slope r c) E.delta_min (E.coordX c) (E.coordY r)
      T.x1 T.y1 T.h1 T.v1 T.x2 T.y2 T.h2 T.v2 T.x3 T.y3 T.h3 T.v3
  else
    plane_a T.x1 T.y1 T.z1 T.x2 T.y2 T.z2 T.x3 T.y3 T.z3 * E.colToX c
      + plane_b T.x1 T.y1 T.z1 T.x2 T.y2 T.z2 T.x3 T.y3 T.z3 * E.rowToY r
      + plane_c T.x1 T.y1 T.z1 T.x2 T.y2 T.z2 T.x3 T.y3 T.z3

/-- The inner column loop of lines 560-595 for one row `r`: visits `n` cells
starting at column `c0`, writing `cellValue` into each cell whose center
passes the winding test. -/
noncomputable def scanCols (E : RastEnv) (T : TriVerts) (r : ℤ) :
    ℕ → ℤ → (ℤ → ℝ) → (ℤ → ℝ)
  | 0, _, g => g
  | n + 1, c0, g =>
    scanCols E T r n (c0 + 1)
      (if insideCell E T r c0 then Function.update g c0 (cellValue E T r c0) else g)

/-- The outer row loop of lines 557-596: visits `n` rows starting at `r0`,
scanning columns `cmin ..= cmax` in each. -/
noncomputable def scanRows (E : RastEnv) (T : TriVerts) (cmin cmax : ℤ) :
    ℕ → ℤ → (ℤ → ℤ → ℝ) → (ℤ → ℤ → ℝ)
  | 0, _, g => g
  | n + 1, r0, g =>
    scanRows E T cmin cmax n (r0 + 1)
      (Function.update g r0 (scanCols E T r0 (cmax + 1 - cmin).toNat cmin (g r0)))

/-- Scan conversion of one triangle over an (already clamped) bounding box
`[cmin, cmax] × [rmin, rmax]` (lines 557-596). -/
noncomputable def rasterTriangle (E : RastEnv) (T : TriVerts)
    (cmin cmax rmin rmax : ℤ) (g : ℤ → ℤ → ℝ) : ℤ → ℤ → ℝ :=
  scanRows E T cmin cmax (rmax + 1 - rmin).toNat rmin g

lemma scanCols_spec (E : RastEnv) (T : TriVerts) (r : ℤ) :
    ∀ (n : ℕ) (c0 : ℤ) (g : ℤ → ℝ) (c : ℤ),
      scanCols E T r n c0 g c =
        if c0 ≤ c ∧ c < c0 + n ∧ insideCell E T r c then cellValue E T r c
        else g c := by
  intro n
  induction n with
  | zero =>
    intro c0 g c
    rw [scanCols, if_neg]
    rintro ⟨h1, h2, -⟩
    omega
  | succ n ih =>
    intro c0 g c
    rw [scanCols, ih]
    by_cases hc : c = c0
    · subst hc
      rw [if_neg (by rintro ⟨h1, -, -⟩; omega)]
      by_cases hin : insideCell E T r c
      · rw [if_pos hin, if_pos ⟨le_refl c, by push_cast; omega, hin⟩,
          Function.update_same]
      · rw [if_neg hin, if_neg (by rintro ⟨-, -, h⟩; exact hin h)]
    · have harms : (if insideCell E T r c0 then
          Function.update g c0 (cellValue E T r c0) else g) c = g c := by
        by_cases hin : insideCell E T r c0
        · rw [if_pos hin, Function.update_noteq hc]
        · rw [if_neg hin]
      rw [harms]
      by_cases hcond : c0 ≤ c ∧ c < c0 + (n + 1 : ℕ) ∧ insideCell E T r c
      · rw [if_pos hcond, if_pos ⟨by omega, by push_cast at hcond ⊢; omega, hcond.2.2⟩]
      · rw [if_neg hcond, if_neg]
        rintro ⟨h1, h2, h3⟩
        exact hcond ⟨by omega, by push_cast at h2 ⊢; omega, h3⟩

lemma scanRows_spec (E : RastEnv) (T : TriVerts) (cmin cmax : ℤ) :
    ∀ (n : ℕ) (r0 : ℤ) (g : ℤ → ℤ → ℝ) (r c : ℤ),
      scanRows E T cmin cmax n r0 g r c =
        if r0 ≤ r ∧ r < r0 + n then
          scanCols E T r (cmax + 1 - cmin).toNat cmin (g r) c
        else g r c := by
  intro n
  induction n with
  | zero =>
    intro r0 g r c
    rw [scanRows, if_neg]
    rintro ⟨h1, h2⟩
    omega
  | succ n ih =>
    intro r0 g r c
    rw [scanRows, ih]
    by_cases hr : r = r0
    · subst hr
      rw [if_neg (by rintro ⟨h1, -⟩; omega), Function.update_same,
        if_pos ⟨le_refl r, by push_cast; omega⟩]
    · rw [Function.update_noteq hr]
      by_cases hcond : r0 ≤ r ∧ r < r0 + (n + 1 : ℕ)
      · rw [if_pos ⟨by omega, by push_cast at hcond ⊢; omega⟩,
          if_pos hcond]
      · rw [if_neg (by rintro ⟨h1, h2⟩; exact hcond ⟨by omega, by push_cast at h2 ⊢; omega⟩),
          if_neg hcond]

/-- C6: for every grid cell `(r, c)` of a triangle's clamped bounding box, the
rasterizer overwrites the cell exactly when the (black-box) non-zero
winding-number test, applied to the cell center and the triangle's vertex loop
with vertex 0 repeated as the closing 4th vertex, reports inside; the written
value is `a` in x-derivative mode (`D.dir = GMT_X`), `b` in y-derivative mode
(`D.dir = GMT_Y`), `sigma` in uncertainty mode and `a·x_cell + b·y_cell + c`
in default mode without uncertainty.  Cells failing the test keep their
previous content. -/
theorem C6_raster_write_iff_winding (E : RastEnv) (T : TriVerts)
    (cmin cmax rmin rmax : ℤ) (g : ℤ → ℤ → ℝ) (r c : ℤ)
    (hr1 : rmin ≤ r) (hr2 : r ≤ rmax) (hc1 : cmin ≤ c) (hc2 : c ≤ cmax) :
    rasterTriangle E T cmin cmax rmin rmax g r c =
      if E.winding (E.colToX c) (E.rowToY r) [T.x1, T.x2, T.x3, T.x1]
          [T.y1, T.y2, T.y3, T.y1] 4 then
        (if E.Ddir = 0 then plane_a T.x1 T.y1 T.z1 T.x2 T.y2 T.z2 T.x3 T.y3 T.z3
         else if E.Ddir = 1 then plane_b T.x1 T.y1 T.z1 T.x2 T.y2 T.z2 T.x3 T.y3 T.z3
         else if E.uactive then
           sigmaCell (E.slope r c) E.delta_min (E.coordX c) (E.coordY r)
             T.x1 T.y1 T.h1 T.v1 T.x2 T.y2 T.h2 T.v2 T.x3 T.y3 T.h3 T.v3
         else
           plane_a T.x1 T.y1 T.z1 T.x2 T.y2 T.z2 T.x3 T.y3 T.z3 * E.colToX c
             + plane_b T.x1 T.y1 T.z1 T.x2 T.y2 T.z2 T.x3 T.y3 T.z3 * E.rowToY r
             + plane_c T.x1 T.y1 T.z1 T.x2 T.y2 T.z2 T.x3 T.y3 T.z3)
      else g r c := by
  unfold rasterTriangle
  rw [scanRows_spec, if_pos ⟨hr1, by omega⟩, scanCols_spec]
  by_cases hin : insideCell E T r c
  · rw [if_pos ⟨hc1, by omega, hin⟩]
    unfold insideCell at hin
    rw [if_pos hin]
    rfl
  · rw [if_neg (by rintro ⟨-, -, h⟩; exact hin h)]
    unfold insideCell at hin
    rw [if_neg hin]

/-- Concrete environment for the C6 witness: winding always answers inside,
x-derivative mode. -/
noncomputable def wEnv6 : RastEnv where
  winding := fun _ _ _ _ _ => true
  colToX := fun _ => 0
  rowToY := fun _ => 0
  coordX := fun _ => 0
  coordY := fun _ => 0
  xToCol := fun _ => 0
  yToRow := fun _ => 0
  Ddir := 0
  uactive := false
  slope := fun _ _ => 0
  delta_min := 1
  ncols := 1
  nrows := 1

/-- Concrete triangle for the C6 witness: (0,0,0), (1,0,1), (0,1,2), whose
fitted plane is z = x + 2y (so a = 1). -/
noncomputable def wTri6 : TriVerts :=
  ⟨0, 0, 0, 0, 0, 1, 0, 1, 0, 0, 0, 1, 2, 0, 0⟩

/-- Witness for C6 at the single-cell box `0..0 × 0..0`: the cell is inside
and receives the x-derivative `a = 1`. -/
theorem C6_raster_write_iff_winding_witness :
    ((0:ℤ) ≤ 0) ∧
    rasterTriangle wEnv6 wTri6 0 0 0 0 (fun _ _ => 0) 0 0 = 1 := by
  refine ⟨le_refl 0, ?_⟩
  rw [C6_raster_write_iff_winding wEnv6 wTri6 0 0 0 0 (fun _ _ => 0) 0 0
    (le_refl 0) (le_refl 0) (le_refl 0) (le_refl 0)]
  norm_num [wEnv6, wTri6, plane_a, plane_f]

/-! ## Per-triangle step with bounding box, rejection and clamping
(triangulate2.c lines 502-503 and 541-555) -/

/-- Grid initialization (lines 502-503): every node of the grid gets the
configured fill value (`Ctrl->E.value`; defaults to the `NaN` "no data"
sentinel when `-E` is absent — the sentinel is abstracted as the parameter
`fill`). -/
noncomputable def initGrid (fill : ℝ) : ℤ → ℤ → ℝ := fun _ _ => fill

/-- One triangle of the `for (k = ij = 0; k < np; k++)` loop (lines 522-597):
bounding box in index space from the coordinate-to-index maps (lines 541-544),
whole-triangle rejection when the box misses the grid (lines 548-550),
clamping to the valid index range (lines 553-555), then scan conversion. -/
noncomputable def rasterStep (E : RastEnv) (g : ℤ → ℤ → ℝ) (T : TriVerts) :
    ℤ → ℤ → ℝ :=
  if E.xToCol (max (max T.x1 T.x2) T.x3) < 0 ∨
      E.ncols ≤ E.xToCol (min (min T.x1 T.x2) T.x3) then g
  else if E.yToRow (min (min T.y1 T.y2) T.y3) < 0 ∨
      E.nrows ≤ E.yToRow (max (max T.y1 T.y2) T.y3) then g
  else
    rasterTriangle E T
      (max (E.xToCol (min (min T.x1 T.x2) T.x3)) 0)
      (min (E.xToCol (max (max T.x1 T.x2) T.x3)) (E.ncols - 1))
      (max (E.yToRow (max (max T.y1 T.y2) T.y3)) 0)
      (min (E.yToRow (min (min T.y1 T.y2) T.y3)) (E.nrows - 1)) g

/-- The whole gridding pass over the triangle list. -/
noncomputable def rasterAll (E : RastEnv) (ts : List TriVerts)
    (g : ℤ → ℤ → ℝ) : ℤ → ℤ → ℝ :=
  ts.foldl (rasterStep E) g

/-- A triangle writes to cell `(r, c)` exactly when it survives the rejection
tests of lines 548-550, the cell lies in the clamped box of lines 553-555, and
the winding test of line 563 reports inside. -/
def triWrites (E : RastEnv) (T : TriVerts) (r c : ℤ) : Prop :=
  ¬(E.xToCol (max (max T.x1 T.x2) T.x3) < 0 ∨
      E.ncols ≤ E.xToCol (min (min T.x1 T.x2) T.x3)) ∧
  ¬(E.yToRow (min (min T.y1 T.y2) T.y3) < 0 ∨
      E.nrows ≤ E.yToRow (max (max T.y1 T.y2) T.y3)) ∧
  max (E.yToRow (max (max T.y1 T.y2) T.y3)) 0 ≤ r ∧
  r ≤ min (E.yToRow (min (min T.y1 T.y2) T.y3)) (E.nrows - 1) ∧
  max (E.xToCol (min (min T.x1 T.x2) T.x3)) 0 ≤ c ∧
  c ≤ min (E.xToCol (max (max T.x1 T.x2) T.x3)) (E.ncols - 1) ∧
  insideCell E T r c = true

lemma rasterStep_of_not_writes (E : RastEnv) (g : ℤ → ℤ → ℝ) (T : TriVerts)
    (r c : ℤ) (h : ¬ triWrites E T r c) : rasterStep E g T r c = g r c := by
  unfold triWrites at h
  unfold rasterStep
  by_cases h1 : E.xToCol (max (max T.x1 T.x2) T.x3) < 0 ∨
      E.ncols ≤ E.xToCol (min (min T.x1 T.x2) T.x3)
  · rw [if_pos h1]
  · rw [if_neg h1]
    by_cases h2 : E.yToRow (min (min T.y1 T.y2) T.y3) < 0 ∨
        E.nrows ≤ E.yToRow (max (max T.y1 T.y2) T.y3)
    · rw [if_pos h2]
    · rw [if_neg h2]
      unfold rasterTriangle
      rw [scanRows_spec]
      by_cases hrow : max (E.yToRow (max (max T.y1 T.y2) T.y3)) 0 ≤ r ∧
          r < max (E.yToRow (max (max T.y1 T.y2) T.y3)) 0 +
            ((min (E.yToRow (min (min T.y1 T.y2) T.y3)) (E.nrows - 1) + 1 -
              max (E.yToRow (max (max T.y1 T.y2) T.y3)) 0).toNat : ℤ)
      · rw [if_pos hrow, scanCols_spec, if_neg]
        rintro ⟨hcl, hcr, hins⟩
        exact h ⟨h1, h2, hrow.1, by omega, hcl, by omega, hins⟩
      · rw [if_neg hrow]

/-- C7: (i) before any triangle is rasterized every grid cell holds the
configured fill value; (ii) a triangle whose bounding box lies entirely
outside the grid's column range or row range (lines 548-550) writes to no cell
at all; (iii) a cell to which no triangle of the run writes retains the fill
value at the end of the gridding pass. -/
theorem C7_fill_and_rejection :
    (∀ (fill : ℝ) (r c : ℤ), initGrid fill r c = fill) ∧
    (∀ (E : RastEnv) (g : ℤ → ℤ → ℝ) (T : TriVerts),
      (E.xToCol (max (max T.x1 T.x2) T.x3) < 0 ∨
        E.ncols ≤ E.xToCol (min (min T.x1 T.x2) T.x3) ∨
        E.yToRow (min (min T.y1 T.y2) T.y3) < 0 ∨
        E.nrows ≤ E.yToRow (max (max T.y1 T.y2) T.y3)) →
      rasterStep E g T = g) ∧
    (∀ (E : RastEnv) (fill : ℝ) (ts : List TriVerts) (r c : ℤ),
      (∀ T ∈ ts, ¬ triWrites E T r c) →
      rasterAll E ts (initGrid fill) r c = fill) := by
  refine ⟨fun _ _ _ => rfl, ?_, ?_⟩
  · intro E g T h
    unfold rasterStep
    by_cases h1 : E.xToCol (max (max T.x1 T.x2) T.x3) < 0 ∨
        E.ncols ≤ E.xToCol (min (min T.x1 T.x2) T.x3)
    · rw [if_pos h1]
    · rw [if_neg h1, if_pos (by tauto)]
  · intro E fill ts r c hts
    have main : ∀ (ts : List TriVerts) (g : ℤ → ℤ → ℝ),
        (∀ T ∈ ts, ¬ triWrites E T r c) → g r c = fill →
        rasterAll E ts g r c = fill := by
      intro ts
      induction ts with
      | nil => intro g _ hg; exact hg
      | cons T ts ih =>
        intro g h hg
        unfold rasterAll
        rw [List.foldl_cons]
        refine ih (rasterStep E g T) (fun U hU => h U (List.mem_cons_of_mem T hU)) ?_
        rw [rasterStep_of_not_writes E g T r c (h T (List.mem_cons_self T ts))]
        exact hg
    exact main ts (initGrid fill) hts rfl

/-- Concrete environment for the C7 witness: the coordinate-to-column map
sends everything to column -1, so every triangle's bounding box lies left of
the grid and is rejected. -/
noncomputable def wEnv7 : RastEnv where
  winding := fun _ _ _ _ _ => true
  colToX := fun _ => 0
  rowToY := fun _ => 0
  coordX := fun _ => 0
  coordY := fun _ => 0
  xToCol := fun _ => -1
  yToRow := fun _ => 0
  Ddir := 2
  uactive := false
  slope := fun _ _ => 0
  delta_min := 1
  ncols := 1
  nrows := 1

/-- Concrete triangle for the C7 witness. -/
noncomputable def wTri7 : TriVerts :=
  ⟨0, 0, 0, 0, 0, 0, 0, 0, 0, 0, 0, 0, 0, 0, 0⟩

/-- Witness for C7: with every column index mapped to -1 the lone triangle is
rejected, so the cell `(0,0)` keeps the fill value 5. -/
theorem C7_fill_and_rejection_witness :
    (∀ T ∈ [wTri7], ¬ triWrites wEnv7 T 0 0) ∧
    rasterAll wEnv7 [wTri7] (initGrid 5) 0 0 = 5 := by
  have h : ∀ T ∈ [wTri7], ¬ triWrites wEnv7 T 0 0 := by
    intro T hT
    rw [List.mem_singleton] at hT
    subst hT
    unfold triWrites
    simp [wEnv7]
  exact ⟨h, C7_fill_and_rejection.2.2 wEnv7 5 [wTri7] 0 0 h⟩

/-! ## Input storage (triangulate2.c lines 101-105 and 333-334, 347-365,
381-393) -/

/-- Column indices of the input record: `GMT_X = 0`, `GMT_Y = 1`, `GMT_Z = 2`,
and the `curve_enum` extension (lines 101-105): `GMT_H = GMT_Z + 1 = 3`,
`GMT_V = 4`. -/
def GMT_H : ℕ := 3

/-- `GMT_V = GMT_H + 1 = 4` (lines 101-105). -/
def GMT_V : ℕ := 4

/-- `n_input` (lines 333-334): 3 columns with `-G` or `-Z`, else 2, plus 2
more with `-u`. -/
def n_input (Gactive Zactive uactive : Bool) : ℕ :=
  (if Gactive || Zactive then 3 else 2) + (if uactive then 2 else 0)

/-- The `hh[n] = fabs(in[GMT_H])` store of lines 384-393, performed exactly in
quadruplet (`n_input == 4`) and quintuplet (`n_input == 5`) mode; `none` when
the mode stores nothing into `hh`. -/
noncomputable def hhStore (nIn : ℕ) (rec : ℕ → ℝ) : Option ℝ :=
  if nIn = 4 ∨ nIn = 5 then some |rec GMT_H| else none

/-- The `vv[n] = fabs(in[GMT_V])` store of lines 384-393. -/
noncomputable def vvStore (nIn : ℕ) (rec : ℕ → ℝ) : Option ℝ :=
  if nIn = 4 ∨ nIn = 5 then some |rec GMT_V| else none

/-- C9 (implicit): whenever the reading loop stores horizontal/vertical
uncertainty proxies (4- or 5-column mode), the stored values are the absolute
values `fabs(in[GMT_H])`, `fabs(in[GMT_V])` of the corresponding input fields,
hence every element of the `hh` and `vv` arrays later consumed by the
uncertainty model is non-negative regardless of the sign of the raw input. -/
theorem C9_stored_uncertainty_nonneg :
    ∀ (nIn : ℕ) (rec : ℕ → ℝ) (x y : ℝ),
      (hhStore nIn rec = some x → 0 ≤ x ∧ x = |rec GMT_H|) ∧
      (vvStore nIn rec = some y → 0 ≤ y ∧ y = |rec GMT_V|) := by
  intro nIn rec x y
  constructor
  · intro h
    unfold hhStore at h
    split_ifs at h with hmode
    · rw [Option.some_inj] at h
      exact ⟨h ▸ abs_nonneg _, h.symm⟩
  · intro h
    unfold vvStore at h
    split_ifs at h with hmode
    · rw [Option.some_inj] at h
      exact ⟨h ▸ abs_nonneg _, h.symm⟩

/-- Witness for C9 at 4-column mode with the all-negative record
`in[i] = -3`: the stored proxy is `3 ≥ 0`. -/
theorem C9_stored_uncertainty_nonneg_witness :
    hhStore 4 (fun _ => -3) = some 3 ∧ (0 ≤ (3:ℝ) ∧ (3:ℝ) = |(-3 : ℝ)|) := by
  have h : hhStore 4 (fun _ => (-3:ℝ)) = some 3 := by
    unfold hhStore
    rw [if_pos (Or.inl rfl), Option.some_inj]
    norm_num
  refine ⟨h, ?_⟩
  have := (C9_stored_uncertainty_nonneg 4 (fun _ => -3) 3 3).1 h
  exact this

/-! ## Attribute-array allocation versus the gridding loop
(triangulate2.c lines 352-365 and 525-527) -/

/-- The `zz` buffer as the input stage leaves it (lines 354 and 360-365):
allocated only in triplet (`n_input == 3`) or quintuplet (`n_input == 5`)
mode; `none` models the NULL pointer. -/
noncomputable def zzArray (nIn : ℕ) (z : ℕ → ℝ) : Option (ℕ → ℝ) :=
  if nIn = 3 ∨ nIn = 5 then some z else none

/-- The `hh` buffer (lines 356-365): allocated only in quadruplet or
quintuplet mode. -/
noncomputable def hhArray (nIn : ℕ) (h : ℕ → ℝ) : Option (ℕ → ℝ) :=
  if nIn = 4 ∨ nIn = 5 then some h else none

/-- The `vv` buffer (lines 356-365): allocated only in quadruplet or
quintuplet mode. -/
noncomputable def vvArray (nIn : ℕ) (v : ℕ → ℝ) : Option (ℕ → ℝ) :=
  if nIn = 4 ∨ nIn = 5 then some v else none

/-- The nine attribute reads of lines 525-527 (`zz[...]`, `hh[...]`,
`vv[...]` for the triangle's three vertices `j`, `k`, `l`): defined only when
all three buffers are allocated; dereferencing a NULL buffer is modelled as
`none`. -/
structure VertexAttrs where
  zj : ℝ
  hj : ℝ
  vj : ℝ
  zk : ℝ
  hk : ℝ
  vk : ℝ
  zl : ℝ
  hl : ℝ
  vl : ℝ

/-- Fetch of the per-vertex attributes (lines 525-527). -/
noncomputable def fetchVertexAttrs (zz hh vv : Option (ℕ → ℝ)) (j k l : ℕ) :
    Option VertexAttrs :=
  match zz, hh, vv with
  | some z, some h, some v =>
      some ⟨z j, h j, v j, z k, h k, v k, z l, h l, v l⟩
  | _, _, _ => none

/-- C10 (implicit): in gridding mode (`-G`, so `n_input ≥ 3`) the rasterizer
loop unconditionally reads `zz`, `hh`, `vv` for all three vertices of every
triangle, but those buffers are allocated only for the matching input modes
(`zz` for 3- or 5-column, `hh`/`vv` only for 4- or 5-column input).  With
`-u` active the input has 5 columns and every fetch succeeds (the error/NULL
branch is unreachable); with `-u` inactive the gridding run has 3-column input
and the fetch of `hh`/`vv` is undefined (NULL dereference), so the reads are
well-defined only under the precondition that uncertainty input accompanies
gridding. -/
theorem C10_grid_requires_uncertainty_input :
    ∀ (Z u : Bool) (z h v : ℕ → ℝ) (j k l : ℕ),
      (u = true →
        (fetchVertexAttrs (zzArray (n_input true Z u) z)
          (hhArray (n_input true Z u) h)
          (vvArray (n_input true Z u) v) j k l).isSome = true) ∧
      (u = false →
        fetchVertexAttrs (zzArray (n_input true Z u) z)
          (hhArray (n_input true Z u) h)
          (vvArray (n_input true Z u) v) j k l = none) := by
  intro Z u z h v j k l
  constructor
  · intro hu
    subst hu
    cases Z <;> simp [n_input, zzArray, hhArray, vvArray, fetchVertexAttrs]
  · intro hu
    subst hu
    cases Z <;> simp [n_input, zzArray, hhArray, vvArray, fetchVertexAttrs]

/-- Witness for C10: with `-G -u` (and no `-Z`) the fetch at concrete indices
succeeds. -/
theorem C10_grid_requires_uncertainty_input_witness :
    (true = true) ∧
    (fetchVertexAttrs (zzArray (n_input true false true) (fun _ => 0))
        (hhArray (n_input true false true) (fun _ => 0))
        (vvArray (n_input true false true) (fun _ => 0)) 0 1 2).isSome = true :=
  ⟨rfl, (C10_grid_requires_uncertainty_input false true (fun _ => 0) (fun _ => 0)
      (fun _ => 0) 0 1 2).1 rfl⟩

/-! ## Post-read pipeline (triangulate2.c lines 437-455, 495-607, 609-703) -/

/-- Return statuses relevant to the post-read pipeline. -/
inductive GMTCode where
  | NOERROR : GMTCode
  | RUNTIME_ERROR : GMTCode
  deriving DecidableEq

/-- Observable outcome of one run after the reading loop: final status,
the grid written by `GMT_Write_Data` (line 602) if any, whether the
record-output section (lines 609-684) ran, and whether the point/attribute
buffers were released. -/
structure PipelineResult where
  status : GMTCode
  gridWritten : Option (ℤ → ℤ → ℝ)
  wroteRecords : Bool
  freedPointBuffers : Bool

/-- Modelled from the spec: the GMT memory allocator `gmt_M_memory`
(external library code, not part of src/) releases the previous allocation
when a buffer is resized to zero elements, which is what the shrink-to-`n`
calls at lines 437-450 do when no data record was read; spec section 7 states
that point/attribute buffers are released on every exit path. -/
def resizeReleasesOnZero : Bool := true

/-- The post-read control flow of `GMT_triangulate2` on its happy path
(external API calls succeeding): lines 452-455 abort with
`GMT_RUNTIME_ERROR` when no point was read — before triangulation, before the
grid branch (lines 495-607) and before the record-output branch (lines
609-684); otherwise the grid is rasterized and written when `-G` is active,
records are written when any of `-M -Q -S -N` is active, and the buffers are
freed at lines 686-699. -/
noncomputable def afterRead (E : RastEnv) (fill : ℝ)
    (Mactive Qactive Sactive Nactive Gactive : Bool)
    (n : ℕ) (tris : List TriVerts) : PipelineResult :=
  if n = 0 then
    { status := GMTCode.RUNTIME_ERROR
      gridWritten := none
      wroteRecords := false
      freedPointBuffers := resizeReleasesOnZero }
  else
    { status := GMTCode.NOERROR
      gridWritten := if Gactive then some (rasterAll E tris (initGrid fill)) else none
      wroteRecords := Mactive || Qactive || Sactive || Nactive
      freedPointBuffers := true }

/-- C8: with zero input points the run aborts with the runtime-error status,
the point buffers are released (by the zero-size shrink of the external
allocator, see `resizeReleasesOnZero`), and neither a grid nor any record
output is produced, whatever the option flags. -/
theorem C8_zero_points_abort :
    ∀ (E : RastEnv) (fill : ℝ) (M Q S N G : Bool) (tris : List TriVerts),
      afterRead E fill M Q S N G 0 tris =
        { status := GMTCode.RUNTIME_ERROR
          gridWritten := none
          wroteRecords := false
          freedPointBuffers := true } := by
  intro E fill M Q S N G tris
  unfold afterRead resizeReleasesOnZero
  rw [if_pos rfl]
